import Mathlib

/-
  Shallow embedding of the edgeware-amm repository (src/pool/lib.rs and
  src/route/lib.rs), an ink! constant-product AMM pool plus a pool router.

  Modelling conventions:
  - u128 / u16 machine integers are modelled as Nat.  The contract crate is
    built with checked arithmetic, so an overflowing or underflowing operation
    and a division by zero abort the call instead of wrapping; aborts (Rust
    panics, failed assert! / expect calls) are modelled as the value none of
    an Option layer.  Subtractions and divisions that are guarded by the code
    itself use plain Nat arithmetic (they agree with the machine semantics on
    every execution that reaches them); the unguarded division-by-zero and
    u16-underflow sites get explicit none guards.
  - the external token ledger (the erc20 crate) is out of scope per the spec;
    its transfer / transfer_from calls either succeed or abort the whole
    operation, so successful executions of a pool operation mutate the pool
    exactly as modelled here.
  - an ink! Mapping is modelled as a total function with default value 0
    (resp. Option-valued for the router registry); Mapping.insert is the
    pointwise update function below.
  - operations that mutate state return Option (Except Error A × Pool):
    none is an abort, some (.error e, p) is a recoverable error (the code
    returns early, so the state is returned unchanged), some (.ok a, q) is
    success with result a and post-state q.  Read-only (&self) operations
    return no state, mirroring that they cannot mutate the pool.
-/

namespace AMM

abbrev AccountId := Nat

/-- Pointwise update of a total map, modelling Mapping.insert. -/
def update [DecidableEq α] (f : α → β) (k : α) (v : β) : α → β :=
  fun x => if x = k then v else f x

@[simp]
theorem update_same [DecidableEq α] (f : α → β) (k : α) (v : β) :
    update f k v k = v := by
  simp [update]

@[simp]
theorem update_other [DecidableEq α] (f : α → β) (k : α) (v : β) (x : α)
    (h : x ≠ k) : update f k v x = f x := by
  simp [update, h]

/-- Error enum of src/pool/lib.rs. -/
inductive Error
  | ZeroLiquidity
  | ZeroAmount
  | InsufficientAmount
  | NonEquivalentValue
  | ThresholdNotReached
  | InvalidShare
  | InsufficientLiquidity
  | SlippageExceeded
  | InsufficientBalance
  | InsufficientAllowance
deriving DecidableEq, Repr

/-- Storage struct of the pool contract (src/pool/lib.rs, lines 57-68). -/
structure Pool where
  token1 : AccountId
  token2 : AccountId
  total_token1 : Nat
  total_token2 : Nat
  total_shares : Nat
  shares : AccountId → Nat
  allowances : AccountId × AccountId → Nat
  fees : Nat

/-- Constructor: new / new_init zero-initialize every numeric field and both
    mappings and record the two token addresses and the fee. -/
def Pool.new (token1 token2 : AccountId) (fees : Nat) : Pool :=
  { token1 := token1
    token2 := token2
    total_token1 := 0
    total_token2 := 0
    total_shares := 0
    shares := fun _ => 0
    allowances := fun _ => 0
    fees := fees }

/-- decimals message: fixed 18. -/
def Pool.decimals (_p : Pool) : Nat := 18

/-- get_k: the liquidity constant of the pool. -/
def get_k (p : Pool) : Nat := p.total_token1 * p.total_token2

/-- active_pool: guards withdraw / swap operations until liquidity exists. -/
def active_pool (p : Pool) : Except Error Unit :=
  if get_k p = 0 then .error .ZeroLiquidity else .ok ()

/-- total_supply message. -/
def total_supply (p : Pool) : Nat := p.total_shares

/-- balance_of message: absent key means balance 0. -/
def balance_of (p : Pool) (owner : AccountId) : Nat := p.shares owner

/-- allowance message: absent key means allowance 0. -/
def allowance (p : Pool) (owner spender : AccountId) : Nat :=
  p.allowances (owner, spender)

/-- get_equivalent_token1_estimate_given_token2 (read-only). -/
def get_equivalent_token1_estimate_given_token2 (p : Pool) (amount_token2 : Nat) :
    Except Error Nat :=
  match active_pool p with
  | .error e => .error e
  | .ok () => .ok (p.total_token1 * amount_token2 / p.total_token2)

/-- get_equivalent_token2_estimate_given_token1 (read-only). -/
def get_equivalent_token2_estimate_given_token1 (p : Pool) (amount_token1 : Nat) :
    Except Error Nat :=
  match active_pool p with
  | .error e => .error e
  | .ok () => .ok (p.total_token2 * amount_token1 / p.total_token1)

/-- add_liquidity (src/pool/lib.rs lines 118-164).  Genesis deposits issue a
    fixed 100 * 10 ^ 18 shares; later deposits issue total_shares * amount /
    reserve, which in the source divides by the reserves without a guard, so
    a zero reserve aborts (none).  The two inbound ledger transfers and the
    two balance assertions concern the external ledger and succeed on every
    execution modelled here. -/
def add_liquidity (p : Pool) (caller : AccountId) (amount_token1 amount_token2 : Nat) :
    Option (Except Error Nat × Pool) :=
  if p.total_shares = 0 then
    let share := 100 * 10 ^ p.decimals
    if share = 0 then some (.error .ThresholdNotReached, p)
    else
      some (.ok share,
        { p with
          total_token1 := p.total_token1 + amount_token1
          total_token2 := p.total_token2 + amount_token2
          total_shares := p.total_shares + share
          shares := update p.shares caller (p.shares caller + share) })
  else
    if p.total_token1 = 0 ∨ p.total_token2 = 0 then none
    else
      let share1 := p.total_shares * amount_token1 / p.total_token1
      let share2 := p.total_shares * amount_token2 / p.total_token2
      if share1 = share2 then
        if share1 = 0 then some (.error .ThresholdNotReached, p)
        else
          some (.ok share1,
            { p with
              total_token1 := p.total_token1 + amount_token1
              total_token2 := p.total_token2 + amount_token2
              total_shares := p.total_shares + share1
              shares := update p.shares caller (p.shares caller + share1) })
      else some (.error .NonEquivalentValue, p)

/-- get_withdraw_estimate (read-only, src/pool/lib.rs lines 168-177).  When
    total_shares = 0 yet k is nonzero (impossible in reachable states) the
    source divides by zero, modelled as none. -/
def get_withdraw_estimate (p : Pool) (share : Nat) :
    Option (Except Error (Nat × Nat)) :=
  match active_pool p with
  | .error e => some (.error e)
  | .ok () =>
    if p.total_shares < share then some (.error .InvalidShare)
    else if p.total_shares = 0 then none
    else
      some (.ok (share * p.total_token1 / p.total_shares,
                 share * p.total_token2 / p.total_shares))

/-- remove_liquidity (src/pool/lib.rs lines 181-201).  The assert that the
    caller holds at least the burned share count is an abort (none). -/
def remove_liquidity (p : Pool) (caller : AccountId) (share : Nat) :
    Option (Except Error (Nat × Nat) × Pool) :=
  if p.shares caller < share then none
  else
    match get_withdraw_estimate p share with
    | none => none
    | some (.error e) => some (.error e, p)
    | some (.ok (amount_token1, amount_token2)) =>
      some (.ok (amount_token1, amount_token2),
        { p with
          shares := update p.shares caller (p.shares caller - share)
          total_shares := p.total_shares - share
          total_token1 := p.total_token1 - amount_token1
          total_token2 := p.total_token2 - amount_token2 })

/-- get_swap_token1_estimate_given_token1 (src/pool/lib.rs lines 205-218).
    The fee factor 1000 - fees underflows u16 when fees > 1000 (none). -/
def get_swap_token1_estimate_given_token1 (p : Pool) (amount_token1 : Nat) :
    Option (Except Error Nat) :=
  match active_pool p with
  | .error e => some (.error e)
  | .ok () =>
    if 1000 < p.fees then none
    else
      let eff := amount_token1 * (1000 - p.fees) / 1000
      let token1_after := p.total_token1 + eff
      let token2_after := get_k p / token1_after
      let amount_token2 := p.total_token2 - token2_after
      let amount_token2 :=
        if amount_token2 = p.total_token2 then amount_token2 - 1 else amount_token2
      some (.ok amount_token2)

/-- get_swap_token1_estimate_given_token2 (src/pool/lib.rs lines 222-233).
    Division by 1000 - fees aborts when fees = 1000 (division by zero) or
    fees > 1000 (u16 underflow); the InsufficientLiquidity return comes
    first in the source and is kept first here. -/
def get_swap_token1_estimate_given_token2 (p : Pool) (amount_token2 : Nat) :
    Option (Except Error Nat) :=
  match active_pool p with
  | .error e => some (.error e)
  | .ok () =>
    if p.total_token2 ≤ amount_token2 then some (.error .InsufficientLiquidity)
    else if 1000 ≤ p.fees then none
    else
      let token2_after := p.total_token2 - amount_token2
      let token1_after := get_k p / token2_after
      some (.ok ((token1_after - p.total_token1) * 1000 / (1000 - p.fees)))

/-- get_swap_token2_estimate_given_token2 (src/pool/lib.rs lines 296-309),
    mirror image of the token1-given-token1 estimate. -/
def get_swap_token2_estimate_given_token2 (p : Pool) (amount_token2 : Nat) :
    Option (Except Error Nat) :=
  match active_pool p with
  | .error e => some (.error e)
  | .ok () =>
    if 1000 < p.fees then none
    else
      let eff := amount_token2 * (1000 - p.fees) / 1000
      let token2_after := p.total_token2 + eff
      let token1_after := get_k p / token2_after
      let amount_token1 := p.total_token1 - token1_after
      let amount_token1 :=
        if amount_token1 = p.total_token1 then amount_token1 - 1 else amount_token1
      some (.ok amount_token1)

/-- get_swap_token2_estimate_given_token1 (src/pool/lib.rs lines 313-324),
    mirror image of the token1-given-token2 estimate. -/
def get_swap_token2_estimate_given_token1 (p : Pool) (amount_token1 : Nat) :
    Option (Except Error Nat) :=
  match active_pool p with
  | .error e => some (.error e)
  | .ok () =>
    if p.total_token1 ≤ amount_token1 then some (.error .InsufficientLiquidity)
    else if 1000 ≤ p.fees then none
    else
      let token1_after := p.total_token1 - amount_token1
      let token2_after := get_k p / token1_after
      some (.ok ((token2_after - p.total_token2) * 1000 / (1000 - p.fees)))

/-- swap_token1_given_token1 (src/pool/lib.rs lines 238-263): quote first,
    slippage check (early error, no mutation), then the full input amount is
    added to reserve 1 and the quoted output removed from reserve 2. -/
def swap_token1_given_token1 (p : Pool) (_caller : AccountId)
    (amount_token1 min_token2 : Nat) : Option (Except Error Nat × Pool) :=
  match get_swap_token1_estimate_given_token1 p amount_token1 with
  | none => none
  | some (.error e) => some (.error e, p)
  | some (.ok amount_token2) =>
    if amount_token2 < min_token2 then some (.error .SlippageExceeded, p)
    else
      some (.ok amount_token2,
        { p with
          total_token1 := p.total_token1 + amount_token1
          total_token2 := p.total_token2 - amount_token2 })

/-- swap_token1_given_token2 (src/pool/lib.rs lines 268-292). -/
def swap_token1_given_token2 (p : Pool) (_caller : AccountId)
    (amount_token2 max_token1 : Nat) : Option (Except Error Nat × Pool) :=
  match get_swap_token1_estimate_given_token2 p amount_token2 with
  | none => none
  | some (.error e) => some (.error e, p)
  | some (.ok amount_token1) =>
    if max_token1 < amount_token1 then some (.error .SlippageExceeded, p)
    else
      some (.ok amount_token1,
        { p with
          total_token1 := p.total_token1 + amount_token1
          total_token2 := p.total_token2 - amount_token2 })

/-- swap_token2_given_token2 (src/pool/lib.rs lines 329-354). -/
def swap_token2_given_token2 (p : Pool) (_caller : AccountId)
    (amount_token2 min_token1 : Nat) : Option (Except Error Nat × Pool) :=
  match get_swap_token2_estimate_given_token2 p amount_token2 with
  | none => none
  | some (.error e) => some (.error e, p)
  | some (.ok amount_token1) =>
    if amount_token1 < min_token1 then some (.error .SlippageExceeded, p)
    else
      some (.ok amount_token1,
        { p with
          total_token2 := p.total_token2 + amount_token2
          total_token1 := p.total_token1 - amount_token1 })

/-- swap_token2_given_token1 (src/pool/lib.rs lines 359-384). -/
def swap_token2_given_token1 (p : Pool) (_caller : AccountId)
    (amount_token1 max_token2 : Nat) : Option (Except Error Nat × Pool) :=
  match get_swap_token2_estimate_given_token1 p amount_token1 with
  | none => none
  | some (.error e) => some (.error e, p)
  | some (.ok amount_token2) =>
    if max_token2 < amount_token2 then some (.error .SlippageExceeded, p)
    else
      some (.ok amount_token2,
        { p with
          total_token2 := p.total_token2 + amount_token2
          total_token1 := p.total_token1 - amount_token1 })

/-- transfer_from_to (src/pool/lib.rs lines 441-464): the destination balance
    is read after the source balance was written, as in the source. -/
def transfer_from_to (p : Pool) (src dst : AccountId) (value : Nat) :
    Except Error Unit × Pool :=
  let src_balance := balance_of p src
  if src_balance < value then (.error .InsufficientBalance, p)
  else
    let shares1 := update p.shares src (src_balance - value)
    let shares2 := update shares1 dst (shares1 dst + value)
    (.ok (), { p with shares := shares2 })

/-- transfer message. -/
def transfer (p : Pool) (caller dst : AccountId) (value : Nat) :
    Except Error Unit × Pool :=
  transfer_from_to p caller dst value

/-- approve message: overwrites the (owner, spender) allowance. -/
def approve (p : Pool) (caller spender : AccountId) (value : Nat) :
    Except Error Unit × Pool :=
  (.ok (), { p with allowances := update p.allowances (caller, spender) value })

/-- transfer_from (src/pool/lib.rs lines 429-439): allowance check first
    (early error, no mutation), then the balance move, then the allowance
    decrement. -/
def transfer_from (p : Pool) (caller src dst : AccountId) (value : Nat) :
    Except Error Unit × Pool :=
  let al := allowance p src caller
  if al < value then (.error .InsufficientAllowance, p)
  else
    match transfer_from_to p src dst value with
    | (.error e, q) => (.error e, q)
    | (.ok (), q) =>
      (.ok (), { q with allowances := update q.allowances (src, caller) (al - value) })

/-- Reachability: pool states produced from a freshly constructed pool by any
    sequence of successful public operations.  Recoverable errors and aborts
    leave the state unchanged, and the remaining messages are read-only, so
    successful steps generate every reachable state. -/
inductive PReach : Pool → Prop
  | init (t1 t2 : AccountId) (fees : Nat) : PReach (Pool.new t1 t2 fees)
  | add {p p' : Pool} {c : AccountId} {a1 a2 sh : Nat} : PReach p →
      add_liquidity p c a1 a2 = some (.ok sh, p') → PReach p'
  | remove {p p' : Pool} {c : AccountId} {s r1 r2 : Nat} : PReach p →
      remove_liquidity p c s = some (.ok (r1, r2), p') → PReach p'
  | s11 {p p' : Pool} {c : AccountId} {a m v : Nat} : PReach p →
      swap_token1_given_token1 p c a m = some (.ok v, p') → PReach p'
  | s12 {p p' : Pool} {c : AccountId} {a m v : Nat} : PReach p →
      swap_token1_given_token2 p c a m = some (.ok v, p') → PReach p'
  | s22 {p p' : Pool} {c : AccountId} {a m v : Nat} : PReach p →
      swap_token2_given_token2 p c a m = some (.ok v, p') → PReach p'
  | s21 {p p' : Pool} {c : AccountId} {a m v : Nat} : PReach p →
      swap_token2_given_token1 p c a m = some (.ok v, p') → PReach p'
  | tr {p p' : Pool} {c t : AccountId} {v : Nat} : PReach p →
      transfer p c t v = (.ok (), p') → PReach p'
  | ap {p p' : Pool} {c s : AccountId} {v : Nat} : PReach p →
      approve p c s v = (.ok (), p') → PReach p'
  | trf {p p' : Pool} {c s t : AccountId} {v : Nat} : PReach p →
      transfer_from p c s t v = (.ok (), p') → PReach p'

/-- Storage struct of the router contract (src/route/lib.rs).  The registry
    maps an ordered pair of token addresses to the pool address; new_init
    leaves everything zero-initialized, so the registry starts empty and the
    default fee is 0. -/
structure Route where
  pools : AccountId × AccountId → Option AccountId
  fees : Nat

/-- Router constructor. -/
def Route.new : Route :=
  { pools := fun _ => none, fees := 0 }

/-- pair_exists (src/route/lib.rs lines 73-78): either ordering counts. -/
def pair_exists (r : Route) (token1 token2 : AccountId) : Bool :=
  (r.pools (token1, token2)).isSome || (r.pools (token2, token1)).isSome

/-- create_pool (src/route/lib.rs lines 33-55): asserts the pair is new
    (abort otherwise, modelled as none), instantiates the pool (external;
    the fresh address is a parameter here) and records it under the ordered
    key (token1, token2). -/
def create_pool (r : Route) (token1 token2 : AccountId) (addr : AccountId) :
    Option Route :=
  if pair_exists r token1 token2 then none
  else some { r with pools := update r.pools (token1, token2) (some addr) }

/-- swap_token (src/route/lib.rs lines 58-68): validates the path and asserts
    every consecutive pair is registered; it never mutates the registry and
    the actual swap is left unimplemented in the source. -/
def path_registered (r : Route) : List AccountId → Bool
  | a :: b :: rest => pair_exists r a b && path_registered r (b :: rest)
  | _ => true

def swap_token (r : Route) (path : List AccountId) : Option Unit :=
  if path.length < 2 then none
  else if path_registered r path then some () else none

/-- Reachability for the router: create_pool is the only operation that
    mutates the registry (swap_token only reads it). -/
inductive RReach : Route → Prop
  | init : RReach Route.new
  | create {r r' : Route} {t1 t2 addr : AccountId} : RReach r →
      create_pool r t1 t2 addr = some r' → RReach r'


/-
  Helper lemmas: characterizations of the successful executions of each
  mutating operation, read off the definitions above.
-/

theorem quote11_active {p : Pool} {a v : Nat}
    (h : get_swap_token1_estimate_given_token1 p a = some (.ok v)) :
    get_k p ≠ 0 := by
  intro hk
  simp [get_swap_token1_estimate_given_token1, active_pool, hk] at h

theorem quote12_active {p : Pool} {a v : Nat}
    (h : get_swap_token1_estimate_given_token2 p a = some (.ok v)) :
    get_k p ≠ 0 := by
  intro hk
  simp [get_swap_token1_estimate_given_token2, active_pool, hk] at h

theorem quote22_active {p : Pool} {a v : Nat}
    (h : get_swap_token2_estimate_given_token2 p a = some (.ok v)) :
    get_k p ≠ 0 := by
  intro hk
  simp [get_swap_token2_estimate_given_token2, active_pool, hk] at h

theorem quote21_active {p : Pool} {a v : Nat}
    (h : get_swap_token2_estimate_given_token1 p a = some (.ok v)) :
    get_k p ≠ 0 := by
  intro hk
  simp [get_swap_token2_estimate_given_token1, active_pool, hk] at h

theorem add_liquidity_ok {p pp : Pool} {c : AccountId} {a1 a2 sh : Nat}
    (h : add_liquidity p c a1 a2 = some (.ok sh, pp)) :
    sh ≠ 0 ∧
    pp = { p with
            total_token1 := p.total_token1 + a1
            total_token2 := p.total_token2 + a2
            total_shares := p.total_shares + sh
            shares := update p.shares c (p.shares c + sh) } ∧
    (p.total_shares = 0 → sh = 100 * 10 ^ 18) ∧
    (p.total_shares ≠ 0 →
       p.total_token1 ≠ 0 ∧ p.total_token2 ≠ 0 ∧
       sh = p.total_shares * a1 / p.total_token1 ∧
       sh = p.total_shares * a2 / p.total_token2) := by
  simp only [add_liquidity, Pool.decimals] at h
  split at h
  case isTrue hS =>
    split at h
    case isTrue hG => simp at h
    case isFalse hG =>
      simp only [Option.some.injEq, Prod.mk.injEq, Except.ok.injEq] at h
      obtain ⟨hv, hst⟩ := h
      subst hv
      subst hst
      refine ⟨by norm_num, rfl, fun _ => rfl, fun hne => absurd hS hne⟩
  case isFalse hS =>
    split at h
    case isTrue hz => simp at h
    case isFalse hz =>
      push_neg at hz
      split at h
      case isTrue heqsh =>
        split at h
        case isTrue h0 => simp at h
        case isFalse h0 =>
          simp only [Option.some.injEq, Prod.mk.injEq, Except.ok.injEq] at h
          obtain ⟨hv, hst⟩ := h
          subst hv
          subst hst
          exact ⟨h0, rfl, fun hc => absurd hc hS,
            fun _ => ⟨hz.1, hz.2, rfl, heqsh⟩⟩
      case isFalse heqsh => simp at h

theorem get_withdraw_estimate_ok {p : Pool} {s r1 r2 : Nat}
    (h : get_withdraw_estimate p s = some (.ok (r1, r2))) :
    get_k p ≠ 0 ∧ p.total_shares ≠ 0 ∧ s ≤ p.total_shares ∧
    r1 = s * p.total_token1 / p.total_shares ∧
    r2 = s * p.total_token2 / p.total_shares := by
  simp only [get_withdraw_estimate, active_pool] at h
  split at h
  · simp at h
  · rename_i hu hk
    split at h
    · simp at h
    · rename_i hlt
      split at h
      · simp at h
      · rename_i hS
        simp only [Option.some.injEq, Except.ok.injEq, Prod.mk.injEq] at h
        obtain ⟨h1, h2⟩ := h
        have hk2 : get_k p ≠ 0 := by
          intro h0
          simp [h0] at hk
        exact ⟨hk2, hS, Nat.le_of_not_lt hlt, h1.symm, h2.symm⟩


theorem remove_liquidity_ok {p pp : Pool} {c : AccountId} {s r1 r2 : Nat}
    (h : remove_liquidity p c s = some (.ok (r1, r2), pp)) :
    get_k p ≠ 0 ∧ p.total_shares ≠ 0 ∧ s ≤ p.total_shares ∧ s ≤ p.shares c ∧
    r1 = s * p.total_token1 / p.total_shares ∧
    r2 = s * p.total_token2 / p.total_shares ∧
    pp = { p with
            shares := update p.shares c (p.shares c - s)
            total_shares := p.total_shares - s
            total_token1 := p.total_token1 - r1
            total_token2 := p.total_token2 - r2 } := by
  simp only [remove_liquidity] at h
  split at h
  · simp at h
  · rename_i hbal
    split at h
    · simp at h
    · simp at h
    · rename_i x1 x2 heq
      simp only [Option.some.injEq, Prod.mk.injEq, Except.ok.injEq] at h
      obtain ⟨⟨hr1, hr2⟩, hst⟩ := h
      subst hr1
      subst hr2
      subst hst
      obtain ⟨hk, hS, hle, e1, e2⟩ := get_withdraw_estimate_ok heq
      exact ⟨hk, hS, hle, Nat.le_of_not_lt hbal, e1, e2, rfl⟩

theorem swap11_ok {p pp : Pool} {c : AccountId} {a m v : Nat}
    (h : swap_token1_given_token1 p c a m = some (.ok v, pp)) :
    get_k p ≠ 0 ∧
    get_swap_token1_estimate_given_token1 p a = some (.ok v) ∧
    pp = { p with
            total_token1 := p.total_token1 + a
            total_token2 := p.total_token2 - v } := by
  simp only [swap_token1_given_token1] at h
  split at h
  · simp at h
  · simp at h
  · rename_i w heq
    split at h
    · simp at h
    · simp only [Option.some.injEq, Prod.mk.injEq, Except.ok.injEq] at h
      obtain ⟨hv, hst⟩ := h
      subst hv
      subst hst
      exact ⟨quote11_active heq, heq, rfl⟩

theorem swap12_ok {p pp : Pool} {c : AccountId} {a m v : Nat}
    (h : swap_token1_given_token2 p c a m = some (.ok v, pp)) :
    get_k p ≠ 0 ∧
    get_swap_token1_estimate_given_token2 p a = some (.ok v) ∧
    pp = { p with
            total_token1 := p.total_token1 + v
            total_token2 := p.total_token2 - a } := by
  simp only [swap_token1_given_token2] at h
  split at h
  · simp at h
  · simp at h
  · rename_i w heq
    split at h
    · simp at h
    · simp only [Option.some.injEq, Prod.mk.injEq, Except.ok.injEq] at h
      obtain ⟨hv, hst⟩ := h
      subst hv
      subst hst
      exact ⟨quote12_active heq, heq, rfl⟩

theorem swap22_ok {p pp : Pool} {c : AccountId} {a m v : Nat}
    (h : swap_token2_given_token2 p c a m = some (.ok v, pp)) :
    get_k p ≠ 0 ∧
    get_swap_token2_estimate_given_token2 p a = some (.ok v) ∧
    pp = { p with
            total_token2 := p.total_token2 + a
            total_token1 := p.total_token1 - v } := by
  simp only [swap_token2_given_token2] at h
  split at h
  · simp at h
  · simp at h
  · rename_i w heq
    split at h
    · simp at h
    · simp only [Option.some.injEq, Prod.mk.injEq, Except.ok.injEq] at h
      obtain ⟨hv, hst⟩ := h
      subst hv
      subst hst
      exact ⟨quote22_active heq, heq, rfl⟩

theorem swap21_ok {p pp : Pool} {c : AccountId} {a m v : Nat}
    (h : swap_token2_given_token1 p c a m = some (.ok v, pp)) :
    get_k p ≠ 0 ∧
    get_swap_token2_estimate_given_token1 p a = some (.ok v) ∧
    pp = { p with
            total_token2 := p.total_token2 + v
            total_token1 := p.total_token1 - a } := by
  simp only [swap_token2_given_token1] at h
  split at h
  · simp at h
  · simp at h
  · rename_i w heq
    split at h
    · simp at h
    · simp only [Option.some.injEq, Prod.mk.injEq, Except.ok.injEq] at h
      obtain ⟨hv, hst⟩ := h
      subst hv
      subst hst
      exact ⟨quote21_active heq, heq, rfl⟩

theorem transfer_from_to_scalars (p : Pool) (a b : AccountId) (v : Nat) :
    (transfer_from_to p a b v).2.total_shares = p.total_shares ∧
    (transfer_from_to p a b v).2.total_token1 = p.total_token1 ∧
    (transfer_from_to p a b v).2.total_token2 = p.total_token2 := by
  simp only [transfer_from_to]
  split <;> simp

theorem transfer_scalars {p pp : Pool} {c d : AccountId} {v : Nat} {res : Except Error Unit}
    (h : transfer p c d v = (res, pp)) :
    pp.total_shares = p.total_shares ∧
    pp.total_token1 = p.total_token1 ∧
    pp.total_token2 = p.total_token2 := by
  have h2 := congrArg Prod.snd h
  simp only at h2
  rw [← h2]
  exact transfer_from_to_scalars p c d v

theorem approve_scalars {p pp : Pool} {c d : AccountId} {v : Nat} {res : Except Error Unit}
    (h : approve p c d v = (res, pp)) :
    pp.total_shares = p.total_shares ∧
    pp.total_token1 = p.total_token1 ∧
    pp.total_token2 = p.total_token2 := by
  have h2 := congrArg Prod.snd h
  simp only [approve] at h2
  rw [← h2]
  exact ⟨rfl, rfl, rfl⟩

theorem transfer_from_scalars {p pp : Pool} {c s d : AccountId} {v : Nat} {res : Except Error Unit}
    (h : transfer_from p c s d v = (res, pp)) :
    pp.total_shares = p.total_shares ∧
    pp.total_token1 = p.total_token1 ∧
    pp.total_token2 = p.total_token2 := by
  have h2 := congrArg Prod.snd h
  simp only [transfer_from] at h2
  split at h2
  · rw [← h2]
    exact ⟨rfl, rfl, rfl⟩
  · split at h2
    · rename_i e q heq
      rw [← h2]
      have := congrArg Prod.snd heq
      simp only at this
      rw [← this]
      exact transfer_from_to_scalars p s d v
    · rename_i q heq
      rw [← h2]
      have := congrArg Prod.snd heq
      simp only at this
      simp only [← this]
      exact transfer_from_to_scalars p s d v


/-- Invariant of every reachable pool state: once the share supply is zero,
    both reserves are zero (a full removal drains both reserves, and swaps
    and non-genesis deposits require an active pool). -/
theorem preach_shares_zero {p : Pool} (hp : PReach p) (h : p.total_shares = 0) :
    p.total_token1 = 0 ∧ p.total_token2 = 0 := by
  induction hp with
  | init t1 t2 f => exact ⟨rfl, rfl⟩
  | add hq heq ih =>
    obtain ⟨hsh, hst, _, _⟩ := add_liquidity_ok heq
    subst hst
    simp only at h
    exact absurd (Nat.eq_zero_of_add_eq_zero_left h) hsh
  | remove hq heq ih =>
    obtain ⟨hk, hS, hle, _, e1, e2, hst⟩ := remove_liquidity_ok heq
    subst hst
    simp only at h ⊢
    have hs := Nat.le_antisymm (Nat.le_of_sub_eq_zero h) hle
    rw [← hs] at e1 e2
    rw [Nat.mul_div_cancel_left _ (Nat.pos_of_ne_zero hS)] at e1 e2
    omega
  | s11 hq heq ih =>
    obtain ⟨hk, _, hst⟩ := swap11_ok heq
    subst hst
    simp only at h
    obtain ⟨h1, h2⟩ := ih h
    exact absurd (by simp [get_k, h1, h2]) hk
  | s12 hq heq ih =>
    obtain ⟨hk, _, hst⟩ := swap12_ok heq
    subst hst
    simp only at h
    obtain ⟨h1, h2⟩ := ih h
    exact absurd (by simp [get_k, h1, h2]) hk
  | s22 hq heq ih =>
    obtain ⟨hk, _, hst⟩ := swap22_ok heq
    subst hst
    simp only at h
    obtain ⟨h1, h2⟩ := ih h
    exact absurd (by simp [get_k, h1, h2]) hk
  | s21 hq heq ih =>
    obtain ⟨hk, _, hst⟩ := swap21_ok heq
    subst hst
    simp only at h
    obtain ⟨h1, h2⟩ := ih h
    exact absurd (by simp [get_k, h1, h2]) hk
  | tr hq heq ih =>
    obtain ⟨hS, h1, h2⟩ := transfer_scalars heq
    rw [hS] at h
    rw [h1, h2]
    exact ih h
  | ap hq heq ih =>
    obtain ⟨hS, h1, h2⟩ := approve_scalars heq
    rw [hS] at h
    rw [h1, h2]
    exact ih h
  | trf hq heq ih =>
    obtain ⟨hS, h1, h2⟩ := transfer_from_scalars heq
    rw [hS] at h
    rw [h1, h2]
    exact ih h


theorem pair_exists_false {r : Route} {t1 t2 : AccountId}
    (h : pair_exists r t1 t2 = false) :
    r.pools (t1, t2) = none ∧ r.pools (t2, t1) = none := by
  simp only [pair_exists, Bool.or_eq_false_iff] at h
  obtain ⟨h1, h2⟩ := h
  constructor
  · cases hc : r.pools (t1, t2) with
    | none => rfl
    | some x => rw [hc] at h1; simp at h1
  · cases hc : r.pools (t2, t1) with
    | none => rfl
    | some x => rw [hc] at h2; simp at h2

theorem create_pool_preserves {r r2 : Route} {t1 t2 addr : AccountId}
    (heq : create_pool r t1 t2 addr = some r2)
    (ih : ∀ a b : AccountId, a ≠ b →
      ¬((r.pools (a, b)).isSome ∧ (r.pools (b, a)).isSome)) :
    ∀ a b : AccountId, a ≠ b →
      ¬((r2.pools (a, b)).isSome ∧ (r2.pools (b, a)).isSome) := by
  simp only [create_pool] at heq
  split at heq
  · simp at heq
  · rename_i hpe
    simp only [Option.some.injEq] at heq
    subst heq
    obtain ⟨h1n, h2n⟩ := pair_exists_false (by simpa using hpe)
    intro a b hab hcon
    obtain ⟨hA, hB⟩ := hcon
    simp only at hA hB
    rcases eq_or_ne ((a, b) : AccountId × AccountId) (t1, t2) with hk1 | hk1
    · rw [Prod.mk.injEq] at hk1
      obtain ⟨ha, hb⟩ := hk1
      have hne : ((b, a) : AccountId × AccountId) ≠ (t1, t2) := by
        intro hcc
        rw [Prod.mk.injEq] at hcc
        exact hab (ha.trans hcc.1.symm)
      rw [update_other _ _ _ _ hne] at hB
      have hba : ((b, a) : AccountId × AccountId) = (t2, t1) := by rw [ha, hb]
      rw [hba, h2n] at hB
      simp at hB
    · rw [update_other _ _ _ _ hk1] at hA
      rcases eq_or_ne ((b, a) : AccountId × AccountId) (t1, t2) with hk2 | hk2
      · rw [Prod.mk.injEq] at hk2
        obtain ⟨hc, hd⟩ := hk2
        have hba : ((a, b) : AccountId × AccountId) = (t2, t1) := by rw [hc, hd]
        rw [hba, h2n] at hA
        simp at hA
      · rw [update_other _ _ _ _ hk2] at hB
        exact ih a b hab ⟨hA, hB⟩

/-- Invariant of every reachable router state: never both orderings of a
    pair registered. -/
theorem rreach_unordered {r : Route} (hr : RReach r) :
    ∀ a b : AccountId, a ≠ b →
      ¬((r.pools (a, b)).isSome ∧ (r.pools (b, a)).isSome) := by
  induction hr with
  | init => intro a b hab hcon; simp [Route.new] at hcon
  | create hq heq ih => exact create_pool_preserves heq ih


/-
  Claim theorems.
-/

/-- Pre-state for claim C1: reserves 9 and 5, fee 1 per mille, reached by a
    genesis deposit of (9, 5) on a fresh pool with fee 1. -/
def c1_pre : Pool :=
  { token1 := 10
    token2 := 20
    total_token1 := 9
    total_token2 := 5
    total_shares := 100 * 10 ^ 18
    shares := update (fun _ => 0) 7 (100 * 10 ^ 18)
    allowances := fun _ => 0
    fees := 1 }

/-- Post-state for claim C1 after swap_token1_given_token1 with input 2. -/
def c1_post : Pool := { c1_pre with total_token1 := 11, total_token2 := 4 }

/-- C1 (code bug evidence): the claim says the pool constant k never
    decreases across a successful swap and strictly increases when fee > 0
    and the input > 0.  The code violates this: on the reachable state with
    reserves (9, 5) and fee 1, swap_token1_given_token1 with input 2 and
    minimum 0 succeeds (output 1) and moves the reserves to (11, 4), so k
    drops from 45 to 44.  The estimate floors token2After = k / token1After,
    which rounds the payout up and leaks value from the pool. -/
theorem c1_swap_decreases_k :
    PReach c1_pre ∧
    c1_pre.fees = 1 ∧
    swap_token1_given_token1 c1_pre 7 2 0 = some (.ok 1, c1_post) ∧
    get_k c1_pre = 45 ∧
    get_k c1_post = 44 ∧
    get_k c1_post < get_k c1_pre := by
  refine ⟨PReach.add (PReach.init 10 20 1)
    (?_ : add_liquidity (Pool.new 10 20 1) 7 9 5 =
      some (.ok (100 * 10 ^ 18), c1_pre)), rfl, rfl, rfl, rfl, by decide⟩
  rfl

/-- Concrete pool of the worked example of claim C2: reserves 1000 and 1000,
    fee 3 per mille. -/
def c2_pool : Pool :=
  { token1 := 1
    token2 := 2
    total_token1 := 1000
    total_token2 := 1000
    total_shares := 0
    shares := fun _ => 0
    allowances := fun _ => 0
    fees := 3 }

/-- C2 counterexample: the claim says the estimate for input 100 computes
    token2After = 910 and returns 90, and that the swap with minimum 91
    returns SlippageExceeded.  In fact 10 ^ 6 / 1099 truncates to 909, the
    estimate returns 91, and the swap with minimum 91 succeeds. -/
theorem c2_counterexample :
    get_swap_token1_estimate_given_token1 c2_pool 100 = some (.ok 91) ∧
    get_swap_token1_estimate_given_token1 c2_pool 100 ≠ some (.ok 90) ∧
    swap_token1_given_token1 c2_pool 7 100 91 =
      some (.ok 91, { c2_pool with total_token1 := 1100, total_token2 := 909 }) := by
  refine ⟨rfl, ?_, rfl⟩
  intro h
  rw [show get_swap_token1_estimate_given_token1 c2_pool 100 = some (.ok 91) from rfl] at h
  simp at h

/-- C2 (amended): on the pool with reserves (1000, 1000) and fee 3,
    the estimate for input 100 computes effectiveInput = 99,
    token1After = 1099, token2After = 909 (truncating division) and returns
    amount2 = 91; the swap with minimum 91 succeeds returning 91, and the
    minimum 92 yields SlippageExceeded. -/
theorem c2_amended_example :
    100 * (1000 - c2_pool.fees) / 1000 = 99 ∧
    c2_pool.total_token1 + 99 = 1099 ∧
    get_k c2_pool = 1000000 ∧
    get_k c2_pool / 1099 = 909 ∧
    c2_pool.total_token2 - 909 = 91 ∧
    get_swap_token1_estimate_given_token1 c2_pool 100 = some (.ok 91) ∧
    swap_token1_given_token1 c2_pool 7 100 91 =
      some (.ok 91, { c2_pool with total_token1 := 1100, total_token2 := 909 }) ∧
    swap_token1_given_token1 c2_pool 7 100 92 =
      some (.error .SlippageExceeded, c2_pool) := by
  exact ⟨rfl, rfl, rfl, rfl, rfl, rfl, rfl, rfl⟩

/-- Reachable state for the C3 counterexample: a genesis deposit of (0, 0)
    on a fresh pool issues the fixed 100 * 10 ^ 18 shares while both
    reserves stay 0. -/
def c3_state : Pool :=
  { token1 := 1
    token2 := 2
    total_token1 := 0
    total_token2 := 0
    total_shares := 100 * 10 ^ 18
    shares := update (fun _ => 0) 5 (100 * 10 ^ 18)
    allowances := fun _ => 0
    fees := 0 }

/-- C3 counterexample: the claimed equivalence (k = 0 iff totalShares = 0)
    fails on the reachable state produced by the genesis deposit of (0, 0):
    there totalShares = 100 * 10 ^ 18 yet k = 0. -/
theorem c3_counterexample :
    PReach c3_state ∧ c3_state.total_shares ≠ 0 ∧ get_k c3_state = 0 := by
  refine ⟨PReach.add (PReach.init 1 2 0)
    (?_ : add_liquidity (Pool.new 1 2 0) 5 0 0 =
      some (.ok (100 * 10 ^ 18), c3_state)), by decide, rfl⟩
  rfl

/-- C3 (amended): in every reachable pool state, totalShares = 0 implies
    k = 0.  The converse direction of the claimed equivalence fails, because
    a genesis deposit with a zero amount gives k = 0 with positive
    totalShares (see the counterexample). -/
theorem c3_shares_zero_implies_k_zero :
    ∀ p : Pool, PReach p → p.total_shares = 0 → get_k p = 0 := by
  intro p hp h
  obtain ⟨h1, h2⟩ := preach_shares_zero hp h
  simp [get_k, h1, h2]

theorem c3_witness : get_k (Pool.new 1 2 3) = 0 :=
  c3_shares_zero_implies_k_zero (Pool.new 1 2 3) (PReach.init 1 2 3) rfl

/-- C4: on any pool state with totalShares = 0, add_liquidity succeeds for
    every pair of amounts and issues exactly 100 * 10 ^ 18 shares to the
    caller, independent of the amounts. -/
theorem c4_genesis_shares :
    ∀ (p : Pool) (c : AccountId) (a1 a2 : Nat), p.total_shares = 0 →
    add_liquidity p c a1 a2 =
      some (.ok (100 * 10 ^ 18),
        { p with
          total_token1 := p.total_token1 + a1
          total_token2 := p.total_token2 + a2
          total_shares := p.total_shares + 100 * 10 ^ 18
          shares := update p.shares c (p.shares c + 100 * 10 ^ 18) }) := by
  intro p c a1 a2 h
  simp only [add_liquidity, Pool.decimals, h]
  norm_num

theorem c4_witness :
    (Pool.new 1 2 0).total_shares = 0 ∧
    add_liquidity (Pool.new 1 2 0) 5 3 4 =
      some (.ok (100 * 10 ^ 18),
        { Pool.new 1 2 0 with
          total_token1 := (Pool.new 1 2 0).total_token1 + 3
          total_token2 := (Pool.new 1 2 0).total_token2 + 4
          total_shares := (Pool.new 1 2 0).total_shares + 100 * 10 ^ 18
          shares := update (Pool.new 1 2 0).shares 5
            ((Pool.new 1 2 0).shares 5 + 100 * 10 ^ 18) }) :=
  ⟨rfl, c4_genesis_shares (Pool.new 1 2 0) 5 3 4 rfl⟩

/-- C5: on any pool state with totalShares nonzero (and the reserves
    nonzero, without which the source divides by zero), add_liquidity
    computes share1 and share2 by truncating division, fails with
    NonEquivalentValue when they differ, fails with ThresholdNotReached when
    both are zero, and otherwise issues share1 to the caller, adds both
    amounts to the reserves and share1 to totalShares. -/
theorem c5_non_genesis_add :
    ∀ (p : Pool) (c : AccountId) (a1 a2 : Nat),
    p.total_shares ≠ 0 → p.total_token1 ≠ 0 → p.total_token2 ≠ 0 →
    (p.total_shares * a1 / p.total_token1 ≠ p.total_shares * a2 / p.total_token2 →
       add_liquidity p c a1 a2 = some (.error .NonEquivalentValue, p)) ∧
    (p.total_shares * a1 / p.total_token1 = p.total_shares * a2 / p.total_token2 →
     p.total_shares * a1 / p.total_token1 = 0 →
       add_liquidity p c a1 a2 = some (.error .ThresholdNotReached, p)) ∧
    (p.total_shares * a1 / p.total_token1 = p.total_shares * a2 / p.total_token2 →
     p.total_shares * a1 / p.total_token1 ≠ 0 →
       add_liquidity p c a1 a2 =
         some (.ok (p.total_shares * a1 / p.total_token1),
           { p with
             total_token1 := p.total_token1 + a1
             total_token2 := p.total_token2 + a2
             total_shares := p.total_shares + p.total_shares * a1 / p.total_token1
             shares := update p.shares c
               (p.shares c + p.total_shares * a1 / p.total_token1) })) := by
  intro p c a1 a2 hS h1 h2
  have hz : ¬(p.total_token1 = 0 ∨ p.total_token2 = 0) := by tauto
  refine ⟨fun hne => ?_, fun he h0 => ?_, fun he h0 => ?_⟩
  · simp only [add_liquidity, Pool.decimals]
    rw [if_neg hS, if_neg hz, if_neg hne]
  · simp only [add_liquidity, Pool.decimals]
    rw [if_neg hS, if_neg hz, if_pos he, if_pos h0]
  · simp only [add_liquidity, Pool.decimals]
    rw [if_neg hS, if_neg hz, if_pos he, if_neg h0]

/-- Sample pool used by witnesses: reserves 10 and 10, 100 shares. -/
def c5_pool : Pool :=
  { token1 := 1
    token2 := 2
    total_token1 := 10
    total_token2 := 10
    total_shares := 100
    shares := fun _ => 0
    allowances := fun _ => 0
    fees := 0 }

theorem c5_witness :
    add_liquidity c5_pool 3 1 2 = some (.error .NonEquivalentValue, c5_pool) ∧
    add_liquidity c5_pool 3 0 0 = some (.error .ThresholdNotReached, c5_pool) ∧
    add_liquidity c5_pool 3 1 1 =
      some (.ok 10,
        { c5_pool with
          total_token1 := 11
          total_token2 := 11
          total_shares := 110
          shares := update c5_pool.shares 3 10 }) :=
  ⟨(c5_non_genesis_add c5_pool 3 1 2 (by decide) (by decide) (by decide)).1 (by decide),
   (c5_non_genesis_add c5_pool 3 0 0 (by decide) (by decide) (by decide)).2.1
     (by decide) (by decide),
   (c5_non_genesis_add c5_pool 3 1 1 (by decide) (by decide) (by decide)).2.2
     (by decide) (by decide)⟩


/-- C6: whenever the quote underlying one of the four swap operations
    succeeds but violates the caller-supplied slippage bound (output below
    the given minimum, or required input above the given maximum), the swap
    returns SlippageExceeded with the pool state unchanged (reserves, total
    shares, every balance and every allowance). -/
theorem c6_slippage_guard :
    ∀ (p : Pool) (c : AccountId) (a m v : Nat),
    (get_swap_token1_estimate_given_token1 p a = some (.ok v) → v < m →
       swap_token1_given_token1 p c a m = some (.error .SlippageExceeded, p)) ∧
    (get_swap_token1_estimate_given_token2 p a = some (.ok v) → m < v →
       swap_token1_given_token2 p c a m = some (.error .SlippageExceeded, p)) ∧
    (get_swap_token2_estimate_given_token2 p a = some (.ok v) → v < m →
       swap_token2_given_token2 p c a m = some (.error .SlippageExceeded, p)) ∧
    (get_swap_token2_estimate_given_token1 p a = some (.ok v) → m < v →
       swap_token2_given_token1 p c a m = some (.error .SlippageExceeded, p)) := by
  intro p c a m v
  refine ⟨fun hq hv => ?_, fun hq hv => ?_, fun hq hv => ?_, fun hq hv => ?_⟩
  · simp only [swap_token1_given_token1, hq]
    rw [if_pos hv]
  · simp only [swap_token1_given_token2, hq]
    rw [if_pos hv]
  · simp only [swap_token2_given_token2, hq]
    rw [if_pos hv]
  · simp only [swap_token2_given_token1, hq]
    rw [if_pos hv]

/-- Pool used by the C6 witness: reserves 1000 and 1000, fee 3. -/
def c6_pool : Pool :=
  { token1 := 1
    token2 := 2
    total_token1 := 1000
    total_token2 := 1000
    total_shares := 100
    shares := fun _ => 0
    allowances := fun _ => 0
    fees := 3 }

theorem c6_witness :
    swap_token1_given_token1 c6_pool 7 100 92 =
      some (.error .SlippageExceeded, c6_pool) ∧
    swap_token1_given_token2 c6_pool 7 100 110 =
      some (.error .SlippageExceeded, c6_pool) ∧
    swap_token2_given_token2 c6_pool 7 100 92 =
      some (.error .SlippageExceeded, c6_pool) ∧
    swap_token2_given_token1 c6_pool 7 100 110 =
      some (.error .SlippageExceeded, c6_pool) :=
  ⟨(c6_slippage_guard c6_pool 7 100 92 91).1 rfl (by decide),
   (c6_slippage_guard c6_pool 7 100 110 111).2.1 rfl (by decide),
   (c6_slippage_guard c6_pool 7 100 92 91).2.2.1 rfl (by decide),
   (c6_slippage_guard c6_pool 7 100 110 111).2.2.2 rfl (by decide)⟩

/-- C7: get_withdraw_estimate returns ZeroLiquidity when k = 0, then
    InvalidShare when share exceeds totalShares, and otherwise the pair of
    proportional amounts with truncating division.  The operation takes the
    state immutably, so it cannot mutate the pool.  The third branch assumes
    totalShares nonzero; with k nonzero that is the case in every reachable
    state (see the C3 theorem), and without it the source divides by zero. -/
theorem c7_withdraw_estimate :
    ∀ (p : Pool) (sh : Nat),
    (get_k p = 0 → get_withdraw_estimate p sh = some (.error .ZeroLiquidity)) ∧
    (get_k p ≠ 0 → p.total_shares < sh →
       get_withdraw_estimate p sh = some (.error .InvalidShare)) ∧
    (get_k p ≠ 0 → p.total_shares ≠ 0 → sh ≤ p.total_shares →
       get_withdraw_estimate p sh =
         some (.ok (sh * p.total_token1 / p.total_shares,
                    sh * p.total_token2 / p.total_shares))) := by
  intro p sh
  refine ⟨fun hk => ?_, fun hk hlt => ?_, fun hk hS hle => ?_⟩
  · simp [get_withdraw_estimate, active_pool, hk]
  · simp [get_withdraw_estimate, active_pool, hk, hlt]
  · simp [get_withdraw_estimate, active_pool, hk, hS, Nat.not_lt.mpr hle]

theorem c7_witness :
    get_withdraw_estimate (Pool.new 1 2 0) 0 = some (.error .ZeroLiquidity) ∧
    get_withdraw_estimate c6_pool 101 = some (.error .InvalidShare) ∧
    get_withdraw_estimate c6_pool 30 = some (.ok (300, 300)) :=
  ⟨(c7_withdraw_estimate (Pool.new 1 2 0) 0).1 rfl,
   (c7_withdraw_estimate c6_pool 101).2.1 (by decide) (by decide),
   (c7_withdraw_estimate c6_pool 30).2.2 (by decide) (by decide) (by decide)⟩

/-- C8: a successful add_liquidity immediately followed by a successful
    remove_liquidity of the exact issued share count, by the same caller,
    returns at most the deposited amounts.  The hypothesis that zero
    totalShares implies zero reserves holds in every reachable state (it is
    the invariant preach_shares_zero). -/
theorem c8_add_remove_le :
    ∀ (p p1 p2 : Pool) (c : AccountId) (a1 a2 s r1 r2 : Nat),
    (p.total_shares = 0 → p.total_token1 = 0 ∧ p.total_token2 = 0) →
    add_liquidity p c a1 a2 = some (.ok s, p1) →
    remove_liquidity p1 c s = some (.ok (r1, r2), p2) →
    r1 ≤ a1 ∧ r2 ≤ a2 := by
  intro p p1 p2 c a1 a2 s r1 r2 hinv hadd hrem
  obtain ⟨hs0, hp1, hgen, hnon⟩ := add_liquidity_ok hadd
  obtain ⟨hk, hS1, hle, hbal, e1, e2, hp2⟩ := remove_liquidity_ok hrem
  subst hp1
  dsimp only at e1 e2 hS1 hle
  by_cases hg : p.total_shares = 0
  · obtain ⟨z1, z2⟩ := hinv hg
    have hr1 : r1 = a1 := by
      rw [e1, hg, z1]
      simp only [Nat.zero_add]
      exact Nat.mul_div_cancel_left _ (Nat.pos_of_ne_zero hs0)
    have hr2 : r2 = a2 := by
      rw [e2, hg, z2]
      simp only [Nat.zero_add]
      exact Nat.mul_div_cancel_left _ (Nat.pos_of_ne_zero hs0)
    omega
  · obtain ⟨ht1, ht2, hsa1, hsa2⟩ := hnon hg
    have key1 : s * p.total_token1 ≤ p.total_shares * a1 := by
      rw [hsa1]
      exact Nat.div_mul_le_self _ _
    have key2 : s * p.total_token2 ≤ p.total_shares * a2 := by
      rw [hsa2]
      exact Nat.div_mul_le_self _ _
    have hpos : 0 < p.total_shares + s := by
      have := Nat.pos_of_ne_zero hg
      omega
    constructor
    · rw [e1]
      calc s * (p.total_token1 + a1) / (p.total_shares + s)
          ≤ (p.total_shares + s) * a1 / (p.total_shares + s) := by
            apply Nat.div_le_div_right
            calc s * (p.total_token1 + a1)
                = s * p.total_token1 + s * a1 := by ring
              _ ≤ p.total_shares * a1 + s * a1 := Nat.add_le_add_right key1 _
              _ = (p.total_shares + s) * a1 := by ring
        _ = a1 := Nat.mul_div_cancel_left _ hpos
    · rw [e2]
      calc s * (p.total_token2 + a2) / (p.total_shares + s)
          ≤ (p.total_shares + s) * a2 / (p.total_shares + s) := by
            apply Nat.div_le_div_right
            calc s * (p.total_token2 + a2)
                = s * p.total_token2 + s * a2 := by ring
              _ ≤ p.total_shares * a2 + s * a2 := Nat.add_le_add_right key2 _
              _ = (p.total_shares + s) * a2 := by ring
        _ = a2 := Nat.mul_div_cancel_left _ hpos

/-- Intermediate state of the C8 witness: c5_pool after a deposit of (5, 5)
    by caller 3. -/
def c8_mid : Pool :=
  { c5_pool with
    total_token1 := 15
    total_token2 := 15
    total_shares := 150
    shares := update c5_pool.shares 3 50 }

/-- Final state of the C8 witness: c8_mid after caller 3 removes 50 shares. -/
def c8_end : Pool :=
  { c8_mid with
    shares := update c8_mid.shares 3 0
    total_shares := 100
    total_token1 := 10
    total_token2 := 10 }

theorem c8_witness :
    (c5_pool.total_shares = 0 → c5_pool.total_token1 = 0 ∧ c5_pool.total_token2 = 0) ∧
    add_liquidity c5_pool 3 5 5 = some (.ok 50, c8_mid) ∧
    remove_liquidity c8_mid 3 50 = some (.ok (5, 5), c8_end) ∧
    (5 ≤ 5 ∧ 5 ≤ 5) :=
  ⟨by decide, rfl, rfl,
   c8_add_remove_le c5_pool c8_mid c8_end 3 5 5 50 5 5 (by decide) rfl rfl⟩

/-- C9: transfer_from with an allowance below the requested value returns
    InsufficientAllowance and leaves the state untouched; a successful
    transfer_from moves exactly value from the source balance to the
    destination balance and decrements the (owner, spender) allowance by
    exactly value (both subtractions are exact, as value is bounded by the
    balance and the allowance). -/
theorem c9_transfer_from :
    ∀ (p : Pool) (c s d : AccountId) (v : Nat),
    (allowance p s c < v →
       transfer_from p c s d v = (.error .InsufficientAllowance, p)) ∧
    (∀ q : Pool, transfer_from p c s d v = (.ok (), q) →
       v ≤ allowance p s c ∧ v ≤ balance_of p s ∧
       (s ≠ d → balance_of q s = balance_of p s - v ∧
                balance_of q d = balance_of p d + v) ∧
       allowance q s c = allowance p s c - v) := by
  intro p c s d v
  constructor
  · intro hlt
    simp only [transfer_from, allowance] at hlt ⊢
    rw [if_pos hlt]
  · intro q h
    simp only [transfer_from] at h
    split at h
    · simp at h
    · rename_i hge
      split at h
      · simp at h
      · rename_i q0 heq
        simp only [Prod.mk.injEq] at h
        obtain ⟨-, hq⟩ := h
        subst hq
        simp only [transfer_from_to] at heq
        split at heq
        · simp at heq
        · rename_i hbal
          simp only [Prod.mk.injEq] at heq
          obtain ⟨-, hq0⟩ := heq
          subst hq0
          simp only [allowance, balance_of] at hge hbal ⊢
          refine ⟨Nat.le_of_not_lt hge, Nat.le_of_not_lt hbal, fun hsd => ?_, ?_⟩
          · constructor
            · rw [update_other _ _ _ _ hsd, update_same]
            · rw [update_same, update_other _ _ _ _ (Ne.symm hsd)]
          · rw [update_same]

/-- Pool used by the C9 witness: account 1 holds 10 shares and has approved
    spender 3 for 5 shares. -/
def c9_pool : Pool :=
  { token1 := 1
    token2 := 2
    total_token1 := 0
    total_token2 := 0
    total_shares := 10
    shares := update (fun _ => 0) 1 10
    allowances := update (fun _ => 0) (1, 3) 5
    fees := 0 }

/-- State of the C9 witness after spender 3 moves 4 shares from 1 to 2. -/
def c9_q : Pool :=
  { c9_pool with
    shares := update (update c9_pool.shares 1 6) 2 4
    allowances := update c9_pool.allowances (1, 3) 1 }

theorem c9_witness :
    transfer_from c9_pool 3 1 2 6 = (.error .InsufficientAllowance, c9_pool) ∧
    (4 ≤ allowance c9_pool 1 3 ∧ 4 ≤ balance_of c9_pool 1 ∧
     ((1 : AccountId) ≠ 2 → balance_of c9_q 1 = balance_of c9_pool 1 - 4 ∧
              balance_of c9_q 2 = balance_of c9_pool 2 + 4) ∧
     allowance c9_q 1 3 = allowance c9_pool 1 3 - 4) :=
  ⟨(c9_transfer_from c9_pool 3 1 2 6).1 (by decide),
   (c9_transfer_from c9_pool 3 1 2 4).2 c9_q rfl⟩

/-- C10: create_pool aborts when the pair is registered in either ordering
    and otherwise records exactly the one new entry under (token1, token2);
    every reachable router state has at most one registered ordering per
    unordered pair; and pair_exists is true exactly when some ordering of
    the pair is registered. -/
theorem c10_router_registry :
    (∀ (r : Route) (t1 t2 a : AccountId),
       pair_exists r t1 t2 = true → create_pool r t1 t2 a = none) ∧
    (∀ (r : Route) (t1 t2 a : AccountId),
       pair_exists r t1 t2 = false →
       create_pool r t1 t2 a =
         some { r with pools := update r.pools (t1, t2) (some a) }) ∧
    (∀ r : Route, RReach r → ∀ a b : AccountId, a ≠ b →
       ¬((r.pools (a, b)).isSome ∧ (r.pools (b, a)).isSome)) ∧
    (∀ (r : Route) (t1 t2 : AccountId),
       pair_exists r t1 t2 = true ↔
         ((r.pools (t1, t2)).isSome ∨ (r.pools (t2, t1)).isSome)) := by
  refine ⟨?_, ?_, ?_, ?_⟩
  · intro r t1 t2 a h
    simp [create_pool, h]
  · intro r t1 t2 a h
    simp [create_pool, h]
  · intro r hr
    exact rreach_unordered hr
  · intro r t1 t2
    simp [pair_exists]

/-- Router registry holding one pool, for the C10 witness. -/
def c10_r1 : Route :=
  { pools := update (fun _ => none) (1, 2) (some 7), fees := 0 }

theorem c10_witness :
    create_pool Route.new 1 2 7 = some c10_r1 ∧
    create_pool c10_r1 1 2 9 = none ∧
    ¬((Route.new.pools (1, 2)).isSome ∧ (Route.new.pools (2, 1)).isSome) ∧
    (pair_exists c10_r1 1 2 = true ↔
      ((c10_r1.pools (1, 2)).isSome ∨ (c10_r1.pools (2, 1)).isSome)) :=
  ⟨c10_router_registry.2.1 Route.new 1 2 7 rfl,
   c10_router_registry.1 c10_r1 1 2 9 rfl,
   c10_router_registry.2.2.1 Route.new RReach.init 1 2 (by decide),
   c10_router_registry.2.2.2 c10_r1 1 2⟩

end AMM
